import Mathlib

/-!
Shallow embedding of the media-intelligence dashboard pipeline
(`streamlitmediaintelapp.py`): schema validation of the uploaded table,
`clean_data`, and the five aggregate tables built by
`generate_charts_and_insights`, together with the insight-attachment loop.

Tabular data is modelled as an ordered list of named columns of cells; a
cell is a null, a string, an integer, a rational (float) or a parsed
datetime (day number).  pandas behaviours used by the app are translated
operation by operation: `pd.to_datetime` on a column, `fillna(0)`,
`astype(int)`, column renaming via `str.lower().str.replace(' ', '_')`,
`groupby(...).sum()` (keys sorted ascending), `value_counts()` (counts
sorted descending, stable) and `Series.nlargest` (stable descending sort
by value, keep first, take n).
-/

/-- Decidable equality for `Except` outcomes, so that concrete runs of
the fallible pipeline steps can be checked by evaluation. -/
instance {ε α : Type} [DecidableEq ε] [DecidableEq α] : DecidableEq (Except ε α) := fun a b =>
  match a, b with
  | Except.error e, Except.error f =>
    if h : e = f then Decidable.isTrue (by rw [h])
    else Decidable.isFalse (fun hh => h (Except.error.inj hh))
  | Except.error _, Except.ok _ => Decidable.isFalse (fun hh => Except.noConfusion hh)
  | Except.ok _, Except.error _ => Decidable.isFalse (fun hh => Except.noConfusion hh)
  | Except.ok x, Except.ok y =>
    if h : x = y then Decidable.isTrue (by rw [h])
    else Decidable.isFalse (fun hh => h (Except.ok.inj hh))

/-- A single cell of an uploaded table: pandas scalar values.  `null`
is NaN/None, `rat` a float value, `date` a parsed datetime (encoded as a
day number as produced by `daysFromCivil`). -/
inductive Cell where
  | null
  | str (s : String)
  | int (n : Int)
  | rat (q : Rat)
  | date (d : Int)
deriving DecidableEq, Repr

/-- A DataFrame: ordered list of (column name, column cells). -/
structure DataFrame where
  cols : List (String × List Cell)
deriving DecidableEq, Repr

/-- The column labels, in order (`df.columns`). -/
def colNames (df : DataFrame) : List String :=
  df.cols.map Prod.fst

/-- First column with the given label, if any (`df[n]` lookup). -/
def lookupCol (n : String) : List (String × List Cell) → Option (List Cell)
  | [] => none
  | (m, v) :: rest => if m = n then some v else lookupCol n rest

/-- `df[n]` as used in `clean_data`: raises `KeyError` when the label is
absent. -/
def getColE (df : DataFrame) (n : String) : Except String (List Cell) :=
  match lookupCol n df.cols with
  | some v => Except.ok v
  | none => Except.error ("KeyError: " ++ n)

/-- Column assignment `df[n] = v`: replaces the column when the label
exists, otherwise appends it at the end, as pandas does. -/
def setColList (n : String) (v : List Cell) : List (String × List Cell) → List (String × List Cell)
  | [] => [(n, v)]
  | (m, w) :: rest => if m = n then (n, v) :: rest else (m, w) :: setColList n v rest

/-- Per-character effect of `str.lower().str.replace(' ', '_')`. -/
def canonChar (c : Char) : Char :=
  if c = ' ' then '_' else c.toLower

/-- Column-name canonicalisation of `clean_data`:
`df.columns.str.lower().str.replace(' ', '_')`. -/
def canonName (s : String) : String :=
  String.mk (s.data.map canonChar)

/-- Digit test on a character. -/
def isDigitCh (c : Char) : Bool :=
  decide (48 ≤ c.toNat) && decide (c.toNat ≤ 57)

/-- Value of a digit string (accumulator form); `none` when a
non-digit appears. -/
def digitsValAux (acc : Nat) : List Char → Option Nat
  | [] => some acc
  | c :: rest => if isDigitCh c then digitsValAux (acc * 10 + (c.toNat - 48)) rest else none

/-- Value of a non-empty all-digit character list. -/
def digitsVal : List Char → Option Nat
  | [] => none
  | l => digitsValAux 0 l

/-- Split a character list on the dash character. -/
def splitDash : List Char → List (List Char)
  | [] => [[]]
  | c :: rest =>
    if c = '-' then [] :: splitDash rest
    else
      match splitDash rest with
      | [] => [[c]]
      | g :: gs => (c :: g) :: gs

/-- ISO `YYYY-MM-DD` parse with basic range checks; the accepted date
grammar of the embedded `pd.to_datetime`. -/
def parseISODate (s : String) : Option (Int × Int × Int) :=
  match splitDash s.data with
  | [ys, ms, ds] =>
    match digitsVal ys, digitsVal ms, digitsVal ds with
    | some y, some m, some d =>
      if 1 ≤ m ∧ m ≤ 12 ∧ 1 ≤ d ∧ d ≤ 31 then some ((y : Int), (m : Int), (d : Int))
      else none
    | _, _, _ => none
  | _ => none

/-- Days since 1970-01-01 of a civil date (Hinnant's algorithm); the
day-number encoding of parsed datetimes. -/
def daysFromCivil (y m d : Int) : Int :=
  let y2 := if m ≤ 2 then y - 1 else y
  let era := (if 0 ≤ y2 then y2 else y2 - 399) / 400
  let yoe := y2 - era * 400
  let mp := (m + 9) % 12
  let doy := (153 * mp + 2) / 5 + d - 1
  let doe := yoe * 365 + yoe / 4 - yoe / 100 + doy
  era * 146097 + doe - 719468

/-- `pd.to_datetime` on one cell: parsed datetimes pass through, a null
stays NaT, a string must match the date grammar, an integer is taken as
an epoch offset, a float fails. -/
def to_datetime (c : Cell) : Except String Cell :=
  match c with
  | Cell.date d => Except.ok (Cell.date d)
  | Cell.null => Except.ok Cell.null
  | Cell.int n => Except.ok (Cell.date n)
  | Cell.rat _ => Except.error "Unknown datetime value"
  | Cell.str s =>
    match parseISODate s with
    | some (y, m, d) => Except.ok (Cell.date (daysFromCivil y m d))
    | none => Except.error ("Unknown datetime string format: " ++ s)

/-- Python `int(s)` on a character list: optional sign, then digits. -/
def parseIntChars : List Char → Option Int
  | '-' :: rest => (digitsVal rest).map (fun n => -(n : Int))
  | '+' :: rest => (digitsVal rest).map (fun n => (n : Int))
  | l => (digitsVal l).map (fun n => (n : Int))

/-- `fillna(0)` on one cell. -/
def fillnaZero (c : Cell) : Cell :=
  match c with
  | Cell.null => Cell.int 0
  | c => c

/-- `astype(int)` on one cell: ints pass through, floats truncate toward
zero (C cast), strings go through `int(...)` and raise on non-numeric
text, datetimes expose their integer encoding, NaN raises. -/
def astypeInt (c : Cell) : Except String Cell :=
  match c with
  | Cell.int n => Except.ok (Cell.int n)
  | Cell.rat q => Except.ok (Cell.int (if 0 ≤ q then ⌊q⌋ else ⌈q⌉))
  | Cell.date d => Except.ok (Cell.int d)
  | Cell.null => Except.error "Cannot convert non-finite values (NA or inf) to integer"
  | Cell.str s =>
    match parseIntChars s.data with
    | some n => Except.ok (Cell.int n)
    | none => Except.error ("invalid literal for int: " ++ s)

/-- The per-cell effect of `df['Engagements'].fillna(0).astype(int)`. -/
def cleanEngCell (c : Cell) : Except String Cell :=
  astypeInt (fillnaZero c)

/-- Map a fallible function over a list, stopping at the first error. -/
def mapExcept {α β : Type} (f : α → Except String β) : List α → Except String (List β)
  | [] => Except.ok []
  | a :: rest =>
    match f a with
    | Except.error e => Except.error e
    | Except.ok b =>
      match mapExcept f rest with
      | Except.error e => Except.error e
      | Except.ok bs => Except.ok (b :: bs)

/-- `clean_data`: parse the `Date` column, fill and coerce the
`Engagements` column to integers, then canonicalise all column names.
Mirrors the three statements of the source function, including the
`KeyError` raised when a capitalised column is absent. -/
def clean_data (df : DataFrame) : Except String DataFrame :=
  match getColE df "Date" with
  | Except.error e => Except.error e
  | Except.ok dateCol =>
    match mapExcept to_datetime dateCol with
    | Except.error e => Except.error e
    | Except.ok dateCol2 =>
      match getColE ⟨setColList "Date" dateCol2 df.cols⟩ "Engagements" with
      | Except.error e => Except.error e
      | Except.ok engCol =>
        match mapExcept cleanEngCell engCol with
        | Except.error e => Except.error e
        | Except.ok engCol2 =>
          Except.ok ⟨(setColList "Engagements" engCol2 (setColList "Date" dateCol2 df.cols)).map
            (fun p => (canonName p.1, p.2))⟩

/-- The required upload columns, in the order the source declares them. -/
def required_cols : List String :=
  ["Date", "Platform", "Sentiment", "Location", "Engagements", "Media Type"]

/-- `[col for col in required_cols if col not in df.columns]`. -/
def missing_cols (df : DataFrame) : List String :=
  required_cols.filter (fun c => decide (¬ c ∈ colNames df))

/-- The schema check guarding the pipeline: error with the missing
labels (in declaration order) or pass the frame through unchanged. -/
def validate_required (df : DataFrame) : Except (List String) DataFrame :=
  if missing_cols df = [] then Except.ok df else Except.error (missing_cols df)

/-- One record of the Canonical Dataset produced by cleaning: a typed
date (day number), the four pass-through string fields and an integer
engagement count. -/
structure CanonRecord where
  date : Int
  platform : String
  sentiment : String
  location : String
  engagements : Int
  media_type : String
deriving DecidableEq, Repr

/-- Lexicographic (code point) strict comparison of character lists:
the string order pandas uses when sorting group keys. -/
def charListLt : List Char → List Char → Bool
  | [], [] => false
  | [], _ :: _ => true
  | _ :: _, [] => false
  | c :: cs, d :: ds =>
    if c < d then true
    else if d < c then false
    else charListLt cs ds

/-- Strict lexicographic order on strings. -/
def strLtB (a b : String) : Bool :=
  charListLt a.data b.data

/-- Strict order on integer group keys (weekly periods). -/
def intLtB (a b : Int) : Bool :=
  decide (a < b)

/-- Keep the first occurrence of each key, in order of appearance
(accumulator of keys already seen). -/
def dedupFirstAux {K : Type} [DecidableEq K] (seen : List K) : List K → List K
  | [] => []
  | x :: rest =>
    if x ∈ seen then dedupFirstAux seen rest
    else x :: dedupFirstAux (x :: seen) rest

/-- Distinct keys of a list, first-appearance order. -/
def dedupFirst {K : Type} [DecidableEq K] (l : List K) : List K :=
  dedupFirstAux [] l

/-- Insert a key into a strictly ascending list (keys are distinct). -/
def insKeyAsc {K : Type} (lt : K → K → Bool) (x : K) : List K → List K
  | [] => [x]
  | y :: ys => if lt x y then x :: y :: ys else y :: insKeyAsc lt x ys

/-- Sort keys ascending: pandas `groupby(..., sort=True)` key order. -/
def sortKeysAsc {K : Type} (lt : K → K → Bool) (l : List K) : List K :=
  l.foldr (insKeyAsc lt) []

/-- Sum of the values attached to one key. -/
def sumVals {K : Type} [DecidableEq K] (k : K) (rows : List (K × Int)) : Int :=
  ((rows.filter (fun p => decide (p.1 = k))).map (fun p => p.2)).sum

/-- `groupby(key)[val].sum()`: one row per distinct key, keys sorted
ascending, each carrying the sum of its values. -/
def groupbySum {K : Type} [DecidableEq K] (lt : K → K → Bool) (rows : List (K × Int)) : List (K × Int) :=
  (sortKeysAsc lt (dedupFirst (rows.map Prod.fst))).map (fun k => (k, sumVals k rows))

/-- Stable insertion for a descending-by-value sort: a new element goes
before the first entry whose value does not exceed it, hence after all
earlier entries with the same value. -/
def insValDesc {K : Type} (x : K × Int) : List (K × Int) → List (K × Int)
  | [] => [x]
  | y :: ys => if y.2 ≤ x.2 then x :: y :: ys else y :: insValDesc x ys

/-- Stable sort descending by value (`keep='first'` semantics). -/
def sortValDesc {K : Type} (l : List (K × Int)) : List (K × Int) :=
  l.foldr insValDesc []

/-- `Series.nlargest n`: stable descending sort by value, take `n`. -/
def nlargest {K : Type} (n : Nat) (l : List (K × Int)) : List (K × Int) :=
  (sortValDesc l).take n

/-- `Series.value_counts()`: tally per distinct value, sorted by count
descending (stable over first appearance). -/
def value_counts (l : List String) : List (String × Int) :=
  sortValDesc ((dedupFirst l).map (fun k => (k, (l.count k : Int))))

/-- Weekly period of a day number: pandas `to_period('W')` buckets days
into Monday-to-Sunday weeks (week-ending-Sunday convention). -/
def toPeriodW (d : Int) : Int :=
  Int.fdiv (d + 3) 7

/-- Sentiment Breakdown table: `df['sentiment'].value_counts()`. -/
def sentiment_counts (ds : List CanonRecord) : List (String × Int) :=
  value_counts (ds.map (fun r => r.sentiment))

/-- Engagement Trend table:
`df.groupby(df['date'].dt.to_period('W'))['engagements'].sum()`. -/
def engagement_trend (ds : List CanonRecord) : List (Int × Int) :=
  groupbySum intLtB (ds.map (fun r => (toPeriodW r.date, r.engagements)))

/-- Platform Engagements table:
`df.groupby('platform')['engagements'].sum()`. -/
def platform_engagements (ds : List CanonRecord) : List (String × Int) :=
  groupbySum strLtB (ds.map (fun r => (r.platform, r.engagements)))

/-- Media Type Mix table: `df['media_type'].value_counts()`. -/
def media_type_counts (ds : List CanonRecord) : List (String × Int) :=
  value_counts (ds.map (fun r => r.media_type))

/-- Top 5 Locations table:
`df.groupby('location')['engagements'].sum().nlargest(5)`. -/
def location_engagements (ds : List CanonRecord) : List (String × Int) :=
  nlargest 5 (groupbySum strLtB (ds.map (fun r => (r.location, r.engagements))))

/-- The five Aggregate Tables of one run. -/
structure Aggregates where
  sentimentBreakdown : List (String × Int)
  engagementTrend : List (Int × Int)
  platformEngagements : List (String × Int)
  mediaTypeMix : List (String × Int)
  topLocations : List (String × Int)
deriving DecidableEq, Repr

/-- Compute the five Aggregate Tables of a Canonical Dataset. -/
def aggregate (ds : List CanonRecord) : Aggregates :=
  ⟨sentiment_counts ds, engagement_trend ds, platform_engagements ds,
   media_type_counts ds, location_engagements ds⟩

/-- Extract a string cell (pass-through fields of a cleaned frame). -/
def cellStr (c : Cell) : String :=
  match c with
  | Cell.str s => s
  | _ => ""

/-- Extract an integer cell (cleaned engagements / datetime codes). -/
def cellInt (c : Cell) : Int :=
  match c with
  | Cell.int n => n
  | Cell.date d => d
  | _ => 0

/-- Row view of a cleaned DataFrame as a Canonical Dataset. -/
def dfToDataset (df : DataFrame) : List CanonRecord :=
  match lookupCol "date" df.cols, lookupCol "platform" df.cols,
      lookupCol "sentiment" df.cols, lookupCol "location" df.cols,
      lookupCol "engagements" df.cols, lookupCol "media_type" df.cols with
  | some dc, some pc, some sc, some lc, some ec, some mc =>
    (dc.zip (pc.zip (sc.zip (lc.zip (ec.zip mc))))).map
      (fun (d, p, s, l, e, m) => ⟨cellInt d, cellStr p, cellStr s, cellStr l, cellInt e, cellStr m⟩)
  | _, _, _, _, _, _ => []

/-- Errors that abort a processing run. -/
inductive RunError where
  | schema (missing : List String)
  | cleanFail (msg : String)
deriving DecidableEq, Repr

/-- The upload handler: validate the required columns (stopping the run
with the missing labels otherwise), clean, then aggregate. -/
def processUpload (df : DataFrame) : Except RunError Aggregates :=
  match validate_required df with
  | Except.error missing => Except.error (RunError.schema missing)
  | Except.ok v =>
    match clean_data v with
    | Except.error e => Except.error (RunError.cleanFail e)
    | Except.ok c => Except.ok (aggregate (dfToDataset c))

/-- The five dashboard table keys, in the fixed construction order. -/
inductive TableKey where
  | sentiment_breakdown
  | engagement_trend
  | platform_engagements
  | media_type_mix
  | top_locations
deriving DecidableEq, Repr

/-- An aggregate table keyed by strings or by weekly periods. -/
inductive AggTable where
  | byStr (rows : List (String × Int))
  | byInt (rows : List (Int × Int))
deriving DecidableEq, Repr

/-- One dashboard entry: title, aggregate table and insight list
(chart object elided: rendering is out of scope). -/
structure ChartInfo where
  title : String
  table : AggTable
  insights : List String
deriving DecidableEq, Repr

/-- The placeholder pushed when one insight call fails. -/
def placeholderInsight : String :=
  "Gagal menghasilkan insight."

/-- `dashboard_data` right after the five charts are built: every
insight list is empty. -/
def baseDashboard (ds : List CanonRecord) : List (TableKey × ChartInfo) :=
  [ (TableKey.sentiment_breakdown,
      ⟨"Sentiment Breakdown", AggTable.byStr (sentiment_counts ds), []⟩),
    (TableKey.engagement_trend,
      ⟨"Engagement Trend over Time", AggTable.byInt (engagement_trend ds), []⟩),
    (TableKey.platform_engagements,
      ⟨"Platform Engagements", AggTable.byStr (platform_engagements ds), []⟩),
    (TableKey.media_type_mix,
      ⟨"Media Type Mix", AggTable.byStr (media_type_counts ds), []⟩),
    (TableKey.top_locations,
      ⟨"Top 5 Locations by Engagements", AggTable.byStr (location_engagements ds), []⟩) ]

/-- Outcome of one per-table insight call: the parsed list on success,
the single-element placeholder on any exception. -/
def insightResult (r : Except String (List String)) : List String :=
  match r with
  | Except.ok l => l
  | Except.error _ => [placeholderInsight]

/-- The per-table insight loop: each entry gets its own call; a failure
only replaces that entry's insight list with the placeholder. -/
def applyInsights (req : TableKey → Except String (List String)) :
    List (TableKey × ChartInfo) → List (TableKey × ChartInfo)
  | [] => []
  | (k, ci) :: rest =>
    (k, { ci with insights := insightResult (req k) }) :: applyInsights req rest

/-- `generate_charts_and_insights`, with the environment made explicit:
whether an API key is configured, and the external model call per table.
Without a key the loop is skipped and all insight lists stay empty. -/
def generate_charts_and_insights (apiConfigured : Bool)
    (req : TableKey → Except String (List String)) (ds : List CanonRecord) :
    List (TableKey × ChartInfo) :=
  if apiConfigured then applyInsights req (baseDashboard ds) else baseDashboard ds

/-- Entry of a dashboard under a table key. -/
def entry (k : TableKey) : List (TableKey × ChartInfo) → Option ChartInfo
  | [] => none
  | (k2, ci) :: rest => if k2 = k then some ci else entry k rest

/-- A store of DataFrame objects, indexed by reference. -/
def Heap : Type :=
  Nat → DataFrame

/-- Write one reference of the store. -/
def heapUpdate (h : Heap) (r : Nat) (v : DataFrame) : Heap :=
  fun s => if s = r then v else h s

/-- `clean_data` at the object level: the three statements of the source
mutate the argument frame through the reference it was passed under, and
the function returns that same reference. -/
def clean_data_ref (h : Heap) (r : Nat) : Except String (Heap × Nat) :=
  match clean_data (h r) with
  | Except.error e => Except.error e
  | Except.ok v => Except.ok (heapUpdate h r v, r)


/-! ## Concrete frames used as test vectors -/

/-- A one-row upload with all six required columns, in declaration
order. -/
def dfSample : DataFrame :=
  ⟨[("Date", [Cell.str "2023-01-01"]), ("Platform", [Cell.str "Twitter"]),
    ("Sentiment", [Cell.str "Positive"]), ("Location", [Cell.str "NY"]),
    ("Engagements", [Cell.int 120]), ("Media Type", [Cell.str "Text"])]⟩

/-- The cleaned form of `dfSample` (2023-01-01 is day 19358). -/
def cleanedSample : DataFrame :=
  ⟨[("date", [Cell.date 19358]), ("platform", [Cell.str "Twitter"]),
    ("sentiment", [Cell.str "Positive"]), ("location", [Cell.str "NY"]),
    ("engagements", [Cell.int 120]), ("media_type", [Cell.str "Text"])]⟩

/-- Like `dfSample` but with a non-numeric `Engagements` value. -/
def dfBadEng : DataFrame :=
  ⟨[("Date", [Cell.str "2023-01-01"]), ("Platform", [Cell.str "Twitter"]),
    ("Sentiment", [Cell.str "Positive"]), ("Location", [Cell.str "NY"]),
    ("Engagements", [Cell.str "abc"]), ("Media Type", [Cell.str "Text"])]⟩

/-- An upload missing the `Platform` and `Location` columns. -/
def dfMissing : DataFrame :=
  ⟨[("Date", []), ("Sentiment", []), ("Engagements", []), ("Media Type", [])]⟩

/-- A header-only upload with the six required columns in a permuted
order (`Platform` first). -/
def dfPerm : DataFrame :=
  ⟨[("Platform", []), ("Date", []), ("Sentiment", []), ("Location", []),
    ("Engagements", []), ("Media Type", [])]⟩

/-- A header-only upload with the six required columns in declaration
order and zero rows. -/
def emptyRaw : DataFrame :=
  ⟨[("Date", []), ("Platform", []), ("Sentiment", []), ("Location", []),
    ("Engagements", []), ("Media Type", [])]⟩

/-- The three-record example dataset of the spec (§8): platforms
Twitter/Facebook/Twitter, locations NewYork/London/London, engagements
120/80/70. -/
def ds7 : List CanonRecord :=
  [⟨19358, "Twitter", "Positive", "NewYork", 120, "Text"⟩,
   ⟨19358, "Facebook", "Negative", "London", 80, "Image"⟩,
   ⟨19358, "Twitter", "Neutral", "London", 70, "Video"⟩]

/-- Two records with tied engagement sums whose locations appear in the
order B, A. -/
def dsTie : List CanonRecord :=
  [⟨19358, "X", "Positive", "B", 10, "Text"⟩,
   ⟨19359, "X", "Negative", "A", 10, "Text"⟩]

/-- The chart record built for one key before insights are attached. -/
def baseChart (k : TableKey) (ds : List CanonRecord) : ChartInfo :=
  match k with
  | TableKey.sentiment_breakdown =>
    ⟨"Sentiment Breakdown", AggTable.byStr (sentiment_counts ds), []⟩
  | TableKey.engagement_trend =>
    ⟨"Engagement Trend over Time", AggTable.byInt (engagement_trend ds), []⟩
  | TableKey.platform_engagements =>
    ⟨"Platform Engagements", AggTable.byStr (platform_engagements ds), []⟩
  | TableKey.media_type_mix =>
    ⟨"Media Type Mix", AggTable.byStr (media_type_counts ds), []⟩
  | TableKey.top_locations =>
    ⟨"Top 5 Locations by Engagements", AggTable.byStr (location_engagements ds), []⟩

/-! ## Column-structure lemmas for `clean_data` -/

/-- A store whose every reference holds the sample upload. -/
def h0 : Heap :=
  fun _ => dfSample

/-- A requester that succeeds on every table. -/
def reqOkW : TableKey → Except String (List String) :=
  fun _ => Except.ok ["i"]

/-- Like `reqOkW` but failing on the Top Locations table. -/
def reqFailW : TableKey → Except String (List String) :=
  fun j => if j = TableKey.top_locations then Except.error "boom" else Except.ok ["i"]

theorem lookupCol_some_mem {n : String} {v : List Cell} :
    ∀ {cols : List (String × List Cell)}, lookupCol n cols = some v → n ∈ cols.map Prod.fst := by
  intro cols h
  induction cols with
  | nil => simp [lookupCol] at h
  | cons p rest ih =>
    obtain ⟨m, w⟩ := p
    by_cases hm : m = n
    · subst hm; simp
    · rw [lookupCol, if_neg hm] at h
      simpa using Or.inr (ih h)

theorem lookupCol_eq_none {n : String} :
    ∀ {cols : List (String × List Cell)}, ¬ n ∈ cols.map Prod.fst → lookupCol n cols = none := by
  intro cols h
  induction cols with
  | nil => rfl
  | cons p rest ih =>
    obtain ⟨m, w⟩ := p
    simp only [List.map_cons, List.mem_cons] at h
    push_neg at h
    rw [lookupCol, if_neg (fun hmn => h.1 hmn.symm)]
    exact ih h.2

theorem setColList_names {n : String} {v : List Cell} :
    ∀ {cols : List (String × List Cell)}, n ∈ cols.map Prod.fst →
      (setColList n v cols).map Prod.fst = cols.map Prod.fst := by
  intro cols h
  induction cols with
  | nil => simp at h
  | cons p rest ih =>
    obtain ⟨m, w⟩ := p
    by_cases hm : m = n
    · subst hm
      rw [setColList, if_pos rfl]
      simp
    · simp only [List.map_cons, List.mem_cons] at h
      rcases h with h | h
      · exact absurd h.symm hm
      · rw [setColList, if_neg hm]
        simp only [List.map_cons]
        rw [ih h]

theorem getColE_ok_mem {df : DataFrame} {n : String} {v : List Cell}
    (h : getColE df n = Except.ok v) : n ∈ colNames df := by
  unfold getColE at h
  cases hl : lookupCol n df.cols with
  | none => rw [hl] at h; exact Except.noConfusion h
  | some w => exact lookupCol_some_mem hl

theorem clean_data_colNames {df df2 : DataFrame} (h : clean_data df = Except.ok df2) :
    colNames df2 = (colNames df).map canonName := by
  unfold clean_data at h
  split at h
  · exact Except.noConfusion h
  · rename_i dateCol h1
    split at h
    · exact Except.noConfusion h
    · rename_i dateCol2 h2
      split at h
      · exact Except.noConfusion h
      · rename_i engCol h3
        split at h
        · exact Except.noConfusion h
        · rename_i engCol2 h4
          have hdf2 : df2 = ⟨(setColList "Engagements" engCol2
              (setColList "Date" dateCol2 df.cols)).map (fun p => (canonName p.1, p.2))⟩ := by
            cases h; rfl
          have hdm : "Date" ∈ df.cols.map Prod.fst := getColE_ok_mem h1
          have hem : "Engagements" ∈ (setColList "Date" dateCol2 df.cols).map Prod.fst :=
            getColE_ok_mem h3
          rw [hdf2]
          show ((setColList "Engagements" engCol2
              (setColList "Date" dateCol2 df.cols)).map (fun p => (canonName p.1, p.2))).map
                Prod.fst = (df.cols.map Prod.fst).map canonName
          rw [List.map_map]
          have hcomp : (Prod.fst ∘ fun p : String × List Cell => (canonName p.1, p.2)) =
              canonName ∘ Prod.fst := rfl
          rw [hcomp, ← List.map_map]
          rw [setColList_names hem, setColList_names hdm]

theorem canonChar_ne_D (c : Char) : canonChar c ≠ 'D' := by
  unfold canonChar
  by_cases hsp : c = ' '
  · rw [if_pos hsp]; decide
  · rw [if_neg hsp]
    by_cases hc : c.toNat ≥ 65 ∧ c.toNat ≤ 90
    · simp only [Char.toLower, if_pos hc]
      obtain ⟨h1, h2⟩ := hc
      generalize c.toNat = m at h1 h2 ⊢
      interval_cases m <;> decide
    · simp only [Char.toLower, if_neg hc]
      intro h
      subst h
      exact hc (by decide)

theorem canonName_ne_Date (s : String) : canonName s ≠ "Date" := by
  unfold canonName
  intro h
  have hd : s.data.map canonChar = "Date".data := congrArg String.data h
  have hD : "Date".data = 'D' :: ['a', 't', 'e'] := by decide
  rw [hD] at hd
  cases hs : s.data with
  | nil => rw [hs] at hd; exact List.noConfusion hd
  | cons c rest =>
    rw [hs, List.map_cons] at hd
    have : canonChar c = 'D' := (List.cons_eq_cons.mp hd).1
    exact canonChar_ne_D c this

theorem not_date_mem_canon (l : List String) : ¬ "Date" ∈ l.map canonName := by
  intro h
  obtain ⟨n, _, hn⟩ := List.mem_map.mp h
  exact canonName_ne_Date n hn

/-! ## Order lemmas for the sorting primitives -/

theorem charListLt_antisymm :
    ∀ a b : List Char, charListLt a b = false → charListLt b a = false → a = b
  | [], [], _, _ => rfl
  | [], _ :: _, h, _ => by simp [charListLt] at h
  | _ :: _, [], _, h2 => by simp [charListLt] at h2
  | c :: cs, d :: ds, h, h2 => by
    unfold charListLt at h h2
    by_cases hcd : c < d
    · rw [if_pos hcd] at h; exact Bool.noConfusion h
    · by_cases hdc : d < c
      · rw [if_pos hdc] at h2; exact Bool.noConfusion h2
      · rw [if_neg hcd, if_neg hdc] at h
        rw [if_neg hdc, if_neg hcd] at h2
        have hc : c = d := le_antisymm (not_lt.mp hdc) (not_lt.mp hcd)
        rw [hc, charListLt_antisymm cs ds h h2]

theorem charListLt_trans :
    ∀ a b c : List Char, charListLt a b = true → charListLt b c = true → charListLt a c = true
  | [], [], _, h1, _ => Bool.noConfusion h1
  | [], _ :: _, [], _, h2 => Bool.noConfusion h2
  | [], _ :: _, _ :: _, _, _ => rfl
  | _ :: _, [], _, h1, _ => Bool.noConfusion h1
  | _ :: _, _ :: _, [], _, h2 => Bool.noConfusion h2
  | x :: xs, y :: ys, z :: zs, h1, h2 => by
    unfold charListLt at h1 h2 ⊢
    rcases lt_trichotomy x y with hxy | hxy | hxy
    · rcases lt_trichotomy y z with hyz | hyz | hyz
      · rw [if_pos (lt_trans hxy hyz)]
      · rw [hyz] at hxy
        rw [if_pos hxy]
      · rw [if_neg (lt_asymm hyz), if_pos hyz] at h2
        exact Bool.noConfusion h2
    · rw [hxy]
      rw [hxy, if_neg (lt_irrefl y), if_neg (lt_irrefl y)] at h1
      rcases lt_trichotomy y z with hyz | hyz | hyz
      · rw [if_pos hyz]
      · rw [hyz] at h2 ⊢
        rw [if_neg (lt_irrefl z), if_neg (lt_irrefl z)] at h2
        rw [if_neg (lt_irrefl z), if_neg (lt_irrefl z)]
        exact charListLt_trans xs ys zs h1 h2
      · rw [if_neg (lt_asymm hyz), if_pos hyz] at h2
        exact Bool.noConfusion h2
    · rw [if_neg (lt_asymm hxy), if_pos hxy] at h1
      exact Bool.noConfusion h1

theorem strLtB_antisymm {a b : String} (h : strLtB a b = false) (h2 : strLtB b a = false) :
    a = b := by
  have hd : a.data = b.data := charListLt_antisymm a.data b.data h h2
  cases a
  cases b
  exact congrArg String.mk hd

theorem strLtB_trans {a b c : String} (h : strLtB a b = true) (h2 : strLtB b c = true) :
    strLtB a c = true :=
  charListLt_trans a.data b.data c.data h h2

/-! ## Insertion-sort lemmas (ascending keys) -/

theorem mem_insKeyAsc {K : Type} (lt : K → K → Bool) (x z : K) :
    ∀ l : List K, z ∈ insKeyAsc lt x l ↔ z = x ∨ z ∈ l := by
  intro l
  induction l with
  | nil => simp [insKeyAsc]
  | cons y ys ih =>
    unfold insKeyAsc
    by_cases hxy : lt x y = true
    · rw [if_pos hxy]; simp
    · rw [if_neg hxy]
      simp only [List.mem_cons, ih]
      tauto

theorem perm_insKeyAsc {K : Type} (lt : K → K → Bool) (x : K) :
    ∀ l : List K, (insKeyAsc lt x l).Perm (x :: l) := by
  intro l
  induction l with
  | nil => simp [insKeyAsc]
  | cons y ys ih =>
    unfold insKeyAsc
    by_cases hxy : lt x y = true
    · rw [if_pos hxy]
    · rw [if_neg hxy]
      exact List.Perm.trans (List.Perm.cons y ih) (List.Perm.swap x y ys)

theorem perm_sortKeysAsc {K : Type} (lt : K → K → Bool) :
    ∀ l : List K, (sortKeysAsc lt l).Perm l := by
  intro l
  induction l with
  | nil => exact List.Perm.refl []
  | cons a l ih =>
    have h1 : sortKeysAsc lt (a :: l) = insKeyAsc lt a (sortKeysAsc lt l) := rfl
    rw [h1]
    exact (perm_insKeyAsc lt a (sortKeysAsc lt l)).trans (List.Perm.cons a ih)

theorem insKeyAsc_pairwise (x : String) :
    ∀ l : List String, l.Pairwise (fun a b => strLtB a b = true) → ¬ x ∈ l →
      (insKeyAsc strLtB x l).Pairwise (fun a b => strLtB a b = true) := by
  intro l hp hx
  induction l with
  | nil => simp [insKeyAsc]
  | cons y ys ih =>
    rw [List.pairwise_cons] at hp
    simp only [List.mem_cons] at hx
    push_neg at hx
    unfold insKeyAsc
    by_cases hxy : strLtB x y = true
    · rw [if_pos hxy]
      rw [List.pairwise_cons]
      refine ⟨?_, List.pairwise_cons.mpr hp⟩
      intro b hb
      rcases List.mem_cons.mp hb with hb | hb
      · rw [hb]; exact hxy
      · exact strLtB_trans hxy (hp.1 b hb)
    · rw [if_neg hxy]
      have hyx : strLtB y x = true := by
        by_cases hyx2 : strLtB y x = true
        · exact hyx2
        · have hf1 : strLtB x y = false := Bool.eq_false_iff.mpr hxy
          have hf2 : strLtB y x = false := Bool.eq_false_iff.mpr hyx2
          exact absurd (strLtB_antisymm hf1 hf2) hx.1
      rw [List.pairwise_cons]
      refine ⟨?_, ih hp.2 hx.2⟩
      intro b hb
      rcases (mem_insKeyAsc strLtB x b ys).mp hb with hb | hb
      · rw [hb]; exact hyx
      · exact hp.1 b hb

theorem sortKeysAsc_pairwise :
    ∀ l : List String, l.Nodup → (sortKeysAsc strLtB l).Pairwise (fun a b => strLtB a b = true) := by
  intro l hn
  induction l with
  | nil => exact List.Pairwise.nil
  | cons a l ih =>
    rw [List.nodup_cons] at hn
    have h1 : sortKeysAsc strLtB (a :: l) = insKeyAsc strLtB a (sortKeysAsc strLtB l) := rfl
    rw [h1]
    refine insKeyAsc_pairwise a _ (ih hn.2) ?_
    intro hmem
    exact hn.1 ((perm_sortKeysAsc strLtB l).mem_iff.mp hmem)

/-! ## Dedup lemmas -/

theorem mem_dedupFirstAux {K : Type} [DecidableEq K] {z : K} :
    ∀ {seen l : List K}, z ∈ dedupFirstAux seen l → z ∈ l ∧ ¬ z ∈ seen := by
  intro seen l
  induction l generalizing seen with
  | nil => intro h; simp [dedupFirstAux] at h
  | cons x rest ih =>
    intro h
    unfold dedupFirstAux at h
    by_cases hx : x ∈ seen
    · rw [if_pos hx] at h
      have := ih h
      exact ⟨List.mem_cons_of_mem x this.1, this.2⟩
    · rw [if_neg hx] at h
      rcases List.mem_cons.mp h with hz | hz
      · exact ⟨hz ▸ List.mem_cons_self x rest, hz ▸ hx⟩
      · have := ih hz
        have hznotin : ¬ z ∈ seen := fun hzs => this.2 (List.mem_cons_of_mem x hzs)
        exact ⟨List.mem_cons_of_mem x this.1, hznotin⟩

theorem nodup_dedupFirstAux {K : Type} [DecidableEq K] :
    ∀ (l seen : List K), (dedupFirstAux seen l).Nodup := by
  intro l
  induction l with
  | nil => intro seen; exact List.nodup_nil
  | cons x rest ih =>
    intro seen
    unfold dedupFirstAux
    by_cases hx : x ∈ seen
    · rw [if_pos hx]; exact ih seen
    · rw [if_neg hx]
      rw [List.nodup_cons]
      refine ⟨?_, ih (x :: seen)⟩
      intro hmem
      exact (mem_dedupFirstAux hmem).2 (List.mem_cons_self x seen)

theorem dedupFirst_nodup {K : Type} [DecidableEq K] (l : List K) : (dedupFirst l).Nodup :=
  nodup_dedupFirstAux l []

theorem mem_dedupFirst {K : Type} [DecidableEq K] {z : K} {l : List K}
    (h : z ∈ dedupFirst l) : z ∈ l :=
  (mem_dedupFirstAux h).1

theorem dedupFirst_cons_ne_nil {K : Type} [DecidableEq K] (x : K) (rest : List K) :
    dedupFirst (x :: rest) ≠ [] := by
  unfold dedupFirst dedupFirstAux
  rw [if_neg (List.not_mem_nil x)]
  exact List.cons_ne_nil x _

/-! ## Stable descending sort lemmas -/

theorem mem_insValDesc {K : Type} (x z : K × Int) :
    ∀ l : List (K × Int), z ∈ insValDesc x l ↔ z = x ∨ z ∈ l := by
  intro l
  induction l with
  | nil => simp [insValDesc]
  | cons y ys ih =>
    unfold insValDesc
    by_cases hy : y.2 ≤ x.2
    · rw [if_pos hy]; simp
    · rw [if_neg hy]
      simp only [List.mem_cons, ih]
      tauto

theorem perm_insValDesc {K : Type} (x : K × Int) :
    ∀ l : List (K × Int), (insValDesc x l).Perm (x :: l) := by
  intro l
  induction l with
  | nil => simp [insValDesc]
  | cons y ys ih =>
    unfold insValDesc
    by_cases hy : y.2 ≤ x.2
    · rw [if_pos hy]
    · rw [if_neg hy]
      exact List.Perm.trans (List.Perm.cons y ih) (List.Perm.swap x y ys)

theorem perm_sortValDesc {K : Type} :
    ∀ l : List (K × Int), (sortValDesc l).Perm l := by
  intro l
  induction l with
  | nil => exact List.Perm.refl []
  | cons a l ih =>
    have h1 : sortValDesc (a :: l) = insValDesc a (sortValDesc l) := rfl
    rw [h1]
    exact (perm_insValDesc a (sortValDesc l)).trans (List.Perm.cons a ih)

theorem insValDesc_pairwise {K : Type} (kr : K → K → Prop) (x : K × Int) :
    ∀ l : List (K × Int),
      l.Pairwise (fun a b => b.2 < a.2 ∨ (a.2 = b.2 ∧ kr a.1 b.1)) →
      (∀ y ∈ l, kr x.1 y.1) →
      (insValDesc x l).Pairwise (fun a b => b.2 < a.2 ∨ (a.2 = b.2 ∧ kr a.1 b.1)) := by
  intro l hp hx
  induction l with
  | nil => simp [insValDesc]
  | cons y ys ih =>
    rw [List.pairwise_cons] at hp
    unfold insValDesc
    by_cases hy : y.2 ≤ x.2
    · rw [if_pos hy]
      rw [List.pairwise_cons]
      refine ⟨?_, List.pairwise_cons.mpr hp⟩
      intro b hb
      rcases List.mem_cons.mp hb with hb | hb
      · rcases lt_or_eq_of_le hy with hlt | heq
        · rw [hb]; exact Or.inl hlt
        · rw [hb]; exact Or.inr ⟨heq.symm, hx y (List.mem_cons_self y ys)⟩
      · have hyb := hp.1 b hb
        have hble : b.2 ≤ x.2 := by
          rcases hyb with hlt | heq
          · exact le_trans (le_of_lt hlt) hy
          · exact le_trans (le_of_eq heq.1.symm) hy
        rcases lt_or_eq_of_le hble with hlt | heq
        · exact Or.inl hlt
        · exact Or.inr ⟨heq.symm, hx b (List.mem_cons_of_mem y hb)⟩
    · rw [if_neg hy]
      push_neg at hy
      rw [List.pairwise_cons]
      refine ⟨?_, ih hp.2 (fun b hb => hx b (List.mem_cons_of_mem y hb))⟩
      intro b hb
      rcases (mem_insValDesc x b ys).mp hb with hb | hb
      · rw [hb]; exact Or.inl hy
      · exact hp.1 b hb

theorem sortValDesc_pairwise {K : Type} (kr : K → K → Prop) :
    ∀ l : List (K × Int), l.Pairwise (fun a b => kr a.1 b.1) →
      (sortValDesc l).Pairwise (fun a b => b.2 < a.2 ∨ (a.2 = b.2 ∧ kr a.1 b.1)) := by
  intro l hp
  induction l with
  | nil => exact List.Pairwise.nil
  | cons a l ih =>
    rw [List.pairwise_cons] at hp
    have h1 : sortValDesc (a :: l) = insValDesc a (sortValDesc l) := rfl
    rw [h1]
    refine insValDesc_pairwise kr a _ (ih hp.2) ?_
    intro y hy
    exact hp.1 y ((perm_sortValDesc l).mem_iff.mp hy)

theorem sortValDesc_eq_nil_iff {K : Type} (l : List (K × Int)) :
    sortValDesc l = [] ↔ l = [] := by
  constructor
  · intro h
    have := (perm_sortValDesc l).length_eq
    rw [h] at this
    exact List.length_eq_zero.mp this.symm
  · intro h; rw [h]; rfl

/-! ## groupby-sum and nlargest lemmas -/

theorem groupbySum_key_pairwise (rows : List (String × Int)) :
    (groupbySum strLtB rows).Pairwise (fun a b => strLtB a.1 b.1 = true) := by
  unfold groupbySum
  rw [List.pairwise_map]
  exact sortKeysAsc_pairwise _ (dedupFirst_nodup _)

theorem mem_groupbySum {K : Type} [DecidableEq K] {lt : K → K → Bool} {rows : List (K × Int)}
    {k : K} {v : Int} (h : (k, v) ∈ groupbySum lt rows) : v = sumVals k rows := by
  unfold groupbySum at h
  obtain ⟨k0, hk0, heq⟩ := List.mem_map.mp h
  have h1 : k0 = k := congrArg Prod.fst heq
  have h2 : sumVals k0 rows = v := congrArg Prod.snd heq
  rw [← h2, h1]

theorem groupbySum_eq_nil_iff {K : Type} [DecidableEq K] (lt : K → K → Bool)
    (rows : List (K × Int)) : groupbySum lt rows = [] ↔ rows = [] := by
  constructor
  · intro h
    unfold groupbySum at h
    rw [List.map_eq_nil_iff] at h
    have hperm := perm_sortKeysAsc lt (dedupFirst (rows.map Prod.fst))
    rw [h] at hperm
    have hlen := hperm.length_eq
    have hd : dedupFirst (rows.map Prod.fst) = [] :=
      List.length_eq_zero.mp hlen.symm
    cases hrow : rows.map Prod.fst with
    | nil => exact List.map_eq_nil_iff.mp hrow
    | cons a rest => rw [hrow] at hd; exact absurd hd (dedupFirst_cons_ne_nil a rest)
  · intro h
    rw [h]
    rfl

theorem nlargest_length_le {K : Type} (n : Nat) (l : List (K × Int)) :
    (nlargest n l).length ≤ n :=
  List.length_take_le n (sortValDesc l)

theorem nlargest_pairwise {K : Type} (kr : K → K → Prop) (n : Nat) {l : List (K × Int)}
    (hp : l.Pairwise (fun a b => kr a.1 b.1)) :
    (nlargest n l).Pairwise (fun a b => b.2 < a.2 ∨ (a.2 = b.2 ∧ kr a.1 b.1)) :=
  (sortValDesc_pairwise kr l hp).sublist (List.take_sublist n (sortValDesc l))

theorem mem_nlargest {K : Type} {n : Nat} {l : List (K × Int)} {z : K × Int}
    (h : z ∈ nlargest n l) : z ∈ l :=
  (perm_sortValDesc l).mem_iff.mp ((List.take_sublist n (sortValDesc l)).subset h)

theorem nlargest_eq_nil_iff {K : Type} (n : Nat) (hn : 0 < n) (l : List (K × Int)) :
    nlargest n l = [] ↔ l = [] := by
  constructor
  · intro h
    unfold nlargest at h
    cases hs : sortValDesc l with
    | nil => exact (sortValDesc_eq_nil_iff l).mp hs
    | cons a rest =>
      rw [hs] at h
      cases n with
      | zero => exact absurd hn (lt_irrefl 0)
      | succ m => simp [List.take] at h
  · intro h
    rw [h]
    simp [nlargest, sortValDesc]

theorem sumVals_map {K A : Type} [DecidableEq K] (k : K) (key : A → K) (val : A → Int)
    (ds : List A) :
    sumVals k (ds.map (fun r => (key r, val r))) =
      ((ds.filter (fun r => decide (key r = k))).map val).sum := by
  unfold sumVals
  rw [List.filter_map, List.map_map]
  rfl

/-! ## Counting lemmas for value_counts -/

theorem count_split (x : String) (seen : List String) (hx : ¬ x ∈ seen) (xs : List String) :
    (xs.filter (fun y => decide (¬ y ∈ seen))).length =
      xs.count x + (xs.filter (fun y => decide (¬ y ∈ (x :: seen)))).length := by
  induction xs with
  | nil => rfl
  | cons y ys ih =>
    by_cases hyx : y = x
    · subst hyx
      rw [List.count_cons_self]
      rw [List.filter_cons, List.filter_cons]
      rw [if_pos (by simpa using hx), if_neg (by simp)]
      rw [List.length_cons]
      omega
    · rw [List.count_cons_of_ne (fun he => hyx he.symm) ys]
      by_cases hys : y ∈ seen
      · rw [List.filter_cons, List.filter_cons]
        rw [if_neg (by simpa using hys), if_neg (by simp [hys])]
        exact ih
      · rw [List.filter_cons, List.filter_cons]
        rw [if_pos (by simpa using hys), if_pos (by simp [hys, hyx])]
        rw [List.length_cons, List.length_cons]
        omega

theorem dedup_count_sum (xs : List String) :
    ∀ seen : List String,
      ((dedupFirstAux seen xs).map (fun k => xs.count k)).sum =
        (xs.filter (fun y => decide (¬ y ∈ seen))).length := by
  induction xs with
  | nil => intro seen; rfl
  | cons x ys ih =>
    intro seen
    unfold dedupFirstAux
    by_cases hx : x ∈ seen
    · rw [if_pos hx]
      have hmapeq : (dedupFirstAux seen ys).map (fun k => (x :: ys).count k) =
          (dedupFirstAux seen ys).map (fun k => ys.count k) := by
        apply List.map_congr_left
        intro k hk
        have hkx : k ≠ x := fun he => (mem_dedupFirstAux hk).2 (he ▸ hx)
        exact List.count_cons_of_ne hkx ys
      rw [hmapeq, ih seen]
      rw [List.filter_cons, if_neg (by simp [hx])]
    · rw [if_neg hx]
      rw [List.map_cons, List.sum_cons]
      have hmapeq : (dedupFirstAux (x :: seen) ys).map (fun k => (x :: ys).count k) =
          (dedupFirstAux (x :: seen) ys).map (fun k => ys.count k) := by
        apply List.map_congr_left
        intro k hk
        have hkx : k ≠ x := fun he => (mem_dedupFirstAux hk).2 (he ▸ List.mem_cons_self x seen)
        exact List.count_cons_of_ne hkx ys
      rw [hmapeq, ih (x :: seen)]
      rw [List.count_cons_self]
      rw [List.filter_cons, if_pos (by simpa using hx)]
      rw [List.length_cons]
      have hs := count_split x seen hx ys
      omega

theorem list_sum_natCast (f : String → Nat) (d : List String) :
    (d.map (fun k => ((f k : Nat) : Int))).sum = (((d.map f).sum : Nat) : Int) := by
  induction d with
  | nil => rfl
  | cons a rest ih =>
    rw [List.map_cons, List.sum_cons, List.map_cons, List.sum_cons, ih]
    push_cast
    ring

theorem value_counts_sum (l : List String) :
    ((value_counts l).map (fun p => p.2)).sum = (l.length : Int) := by
  unfold value_counts
  have hperm := perm_sortValDesc ((dedupFirst l).map (fun k => (k, (l.count k : Int))))
  have hmp := hperm.map (fun p : String × Int => p.2)
  rw [hmp.sum_eq, List.map_map]
  have hcomp : ((fun p : String × Int => p.2) ∘ fun k => (k, (l.count k : Int))) =
      fun k => (l.count k : Int) := rfl
  rw [hcomp]
  have hnat := dedup_count_sum l []
  have hfilter : l.filter (fun y => decide (¬ y ∈ ([] : List String))) = l := by
    apply List.filter_eq_self.mpr
    intro a ha
    simp
  rw [hfilter] at hnat
  have hnat2 : ((dedupFirst l).map (fun k => l.count k)).sum = l.length := hnat
  rw [list_sum_natCast (fun k => l.count k) (dedupFirst l), hnat2]

theorem mem_value_counts {l : List String} {k : String} {v : Int}
    (h : (k, v) ∈ value_counts l) : v = (l.count k : Int) := by
  unfold value_counts at h
  have h2 := (perm_sortValDesc _).mem_iff.mp h
  obtain ⟨k0, hk0, heq⟩ := List.mem_map.mp h2
  have h1 : k0 = k := congrArg Prod.fst heq
  have hv : (l.count k0 : Int) = v := congrArg Prod.snd heq
  rw [← hv, h1]

/-! ## Dashboard-assembly lemmas -/

theorem entry_baseDashboard (k : TableKey) (ds : List CanonRecord) :
    entry k (baseDashboard ds) = some (baseChart k ds) := by
  cases k <;> rfl

theorem entry_applyInsights (req : TableKey → Except String (List String)) (k : TableKey) :
    ∀ base : List (TableKey × ChartInfo),
      entry k (applyInsights req base) =
        (entry k base).map (fun ci => { ci with insights := insightResult (req k) }) := by
  intro base
  induction base with
  | nil => rfl
  | cons p rest ih =>
    obtain ⟨k2, ci⟩ := p
    by_cases hk : k2 = k
    · subst hk
      unfold applyInsights entry
      rw [if_pos rfl, if_pos rfl]
      rfl
    · unfold applyInsights entry
      rw [if_neg hk, if_neg hk]
      exact ih

/-! ## Supporting lemma: a successful clean implies `Date` was present -/

theorem clean_data_ok_date_mem {df df2 : DataFrame} (h : clean_data df = Except.ok df2) :
    "Date" ∈ colNames df := by
  unfold clean_data at h
  split at h
  · exact Except.noConfusion h
  · rename_i dateCol h1
    exact getColE_ok_mem h1

/-! ## Claim C1 -/

/-- C1 (counterexample): a non-numeric `Engagements` string is not
substituted with 0 — `clean_data` raises on it, refuting both the
"substitute 0 for non-numeric" and the "never fails" parts of the
claim. -/
theorem c1_counterexample :
    clean_data dfBadEng = Except.error "invalid literal for int: abc" ∧
    cleanEngCell (Cell.str "abc") ≠ Except.ok (Cell.int 0) ∧
    (cleanEngCell (Cell.str "abc")).isOk = false := by
  refine ⟨by decide, by decide, by decide⟩

/-- C1 (amended): the `Engagements` cleaning step
(`fillna(0).astype(int)`) maps an absent/null value to the integer 0,
passes integers through with negative values accepted as-is, truncates
fractional values toward zero, but fails (raises) on a non-numeric
string value instead of substituting 0. -/
theorem c1_clean_engagements (s : String) (q : Rat) (n : Int)
    (hs : parseIntChars s.data = none) :
    cleanEngCell Cell.null = Except.ok (Cell.int 0) ∧
    cleanEngCell (Cell.int n) = Except.ok (Cell.int n) ∧
    cleanEngCell (Cell.rat q) = Except.ok (Cell.int (if 0 ≤ q then ⌊q⌋ else ⌈q⌉)) ∧
    (cleanEngCell (Cell.str s)).isOk = false := by
  refine ⟨rfl, rfl, rfl, ?_⟩
  simp [cleanEngCell, fillnaZero, astypeInt, hs, Except.isOk, Except.toBool]

/-- C1 (witness): the amended theorem applied at the non-numeric string
"abc", the float 2 and the integer -5. -/
theorem c1_witness :
    parseIntChars "abc".data = none ∧
    (cleanEngCell Cell.null = Except.ok (Cell.int 0) ∧
      cleanEngCell (Cell.int (-5)) = Except.ok (Cell.int (-5)) ∧
      cleanEngCell (Cell.rat 2) =
        Except.ok (Cell.int (if 0 ≤ (2 : Rat) then ⌊(2 : Rat)⌋ else ⌈(2 : Rat)⌉)) ∧
      (cleanEngCell (Cell.str "abc")).isOk = false) :=
  ⟨by decide, c1_clean_engagements "abc" 2 (-5) (by decide)⟩

/-! ## Claim C2 -/

/-- C2 (counterexample): when `Platform` and `Location` are missing the
validator reports them in the declaration order `[Platform, Location]`,
which is not a sorted list (`Location` sorts before `Platform`). -/
theorem c2_counterexample :
    validate_required dfMissing = Except.error ["Platform", "Location"] ∧
    ¬ List.Pairwise (fun a b : String => strLtB a b = true) ["Platform", "Location"] ∧
    ["Platform", "Location"] ≠ ["Location", "Platform"] := by
  refine ⟨by decide, by decide, by decide⟩

/-- C2 (amended): a dataset missing required fields fails validation
with exactly the missing names — in the fixed declaration order of
`required_cols` (a sublist of it), not sorted — and the pipeline then
stops with a schema error before cleaning or aggregation; a dataset with
all six fields passes through unchanged. -/
theorem c2_schema_validator (df : DataFrame) :
    (∀ c, c ∈ missing_cols df ↔ (c ∈ required_cols ∧ ¬ c ∈ colNames df)) ∧
    List.Sublist (missing_cols df) required_cols ∧
    (missing_cols df = [] → validate_required df = Except.ok df) ∧
    (missing_cols df ≠ [] →
      validate_required df = Except.error (missing_cols df) ∧
      processUpload df = Except.error (RunError.schema (missing_cols df))) := by
  refine ⟨?_, ?_, ?_, ?_⟩
  · intro c
    unfold missing_cols
    rw [List.mem_filter]
    simp
  · exact List.filter_sublist required_cols
  · intro h
    unfold validate_required
    rw [if_pos h]
  · intro h
    have hv : validate_required df = Except.error (missing_cols df) := by
      unfold validate_required
      rw [if_neg h]
    refine ⟨hv, ?_⟩
    unfold processUpload
    rw [hv]

/-- C2 (witness): the amended theorem applied to the frame missing
`Platform` and `Location`. -/
theorem c2_witness :
    missing_cols dfMissing ≠ [] ∧
    (validate_required dfMissing = Except.error (missing_cols dfMissing) ∧
      processUpload dfMissing = Except.error (RunError.schema (missing_cols dfMissing))) :=
  ⟨by decide, (c2_schema_validator dfMissing).2.2.2 (by decide)⟩

/-! ## Claim C4 -/

/-- C4 (counterexample): cleaning the sample upload succeeds, but
cleaning the result again raises `KeyError: Date`, so cleaning twice is
not the same as cleaning once. -/
theorem c4_counterexample :
    (clean_data dfSample).isOk = true ∧
    (clean_data dfSample).bind clean_data = Except.error "KeyError: Date" ∧
    (clean_data dfSample).bind clean_data ≠ clean_data dfSample := by
  refine ⟨by decide, by decide, by decide⟩

/-- C4 (amended): the Data Cleaner is not idempotent — applying it to
the output of any successful cleaning fails with `KeyError: Date`,
because the first application renamed every column to its lowercase
canonical form. -/
theorem c4_not_idempotent (df df2 : DataFrame) (h : clean_data df = Except.ok df2) :
    clean_data df2 = Except.error "KeyError: Date" := by
  have hnames := clean_data_colNames h
  have hnodate : ¬ "Date" ∈ colNames df2 := by
    rw [hnames]
    exact not_date_mem_canon (colNames df)
  have hlook : lookupCol "Date" df2.cols = none := lookupCol_eq_none hnodate
  unfold clean_data getColE
  rw [hlook]
  rfl

/-- C4 (witness): the amended theorem applied at the sample upload. -/
theorem c4_witness :
    clean_data dfSample = Except.ok cleanedSample ∧
    clean_data cleanedSample = Except.error "KeyError: Date" :=
  ⟨by decide, c4_not_idempotent dfSample cleanedSample (by decide)⟩

/-! ## Claim C5 -/

/-- C5 (counterexample): with the six required columns uploaded in the
order Platform, Date, ... the cleaned names keep that input order, which
differs from the fixed canonical order — output order depends on input
order. -/
theorem c5_counterexample :
    (clean_data dfPerm).map colNames =
      Except.ok ["platform", "date", "sentiment", "location", "engagements", "media_type"] ∧
    (["platform", "date", "sentiment", "location", "engagements", "media_type"] : List String) ≠
      ["date", "platform", "sentiment", "location", "engagements", "media_type"] := by
  refine ⟨by decide, by decide⟩

/-- C5 (amended): the cleaned column names are exactly the canonical
images (lowercase, spaces to underscores) of the input column names, in
the input's column order; whenever the input columns are a permutation
of the six required names the output names are a permutation of the six
canonical names — but the order follows the input, it is not fixed. -/
theorem c5_canonical_names (df df2 : DataFrame) (h : clean_data df = Except.ok df2) :
    colNames df2 = (colNames df).map canonName ∧
    ((colNames df).Perm required_cols →
      (colNames df2).Perm
        ["date", "platform", "sentiment", "location", "engagements", "media_type"]) := by
  refine ⟨clean_data_colNames h, ?_⟩
  intro hperm
  rw [clean_data_colNames h]
  have h2 : required_cols.map canonName =
      ["date", "platform", "sentiment", "location", "engagements", "media_type"] := by decide
  rw [← h2]
  exact hperm.map canonName

/-- C5 (witness): the amended theorem applied at the sample upload,
whose columns are the six required names in declaration order. -/
theorem c5_witness :
    clean_data dfSample = Except.ok cleanedSample ∧
    (colNames dfSample).Perm required_cols ∧
    (colNames cleanedSample).Perm
      ["date", "platform", "sentiment", "location", "engagements", "media_type"] :=
  ⟨by decide, List.Perm.refl _, (c5_canonical_names dfSample cleanedSample (by decide)).2 (List.Perm.refl _)⟩

/-! ## Claim C10 -/

/-- C10: `clean_data` mutates its argument in place and returns the same
object: at the object level, a successful run overwrites the store at
the reference it was handed (so the raw frame does not survive there —
the cleaned value always differs, its `Date` column having been renamed
away), leaves every other reference untouched, and hands back the very
same reference. -/
theorem c10_inplace_mutation (h : Heap) (r : Nat) (v : DataFrame)
    (hok : clean_data (h r) = Except.ok v) :
    clean_data_ref h r = Except.ok (heapUpdate h r v, r) ∧
    heapUpdate h r v r = v ∧
    v ≠ h r ∧
    (∀ s : Nat, s ≠ r → heapUpdate h r v s = h s) := by
  refine ⟨?_, ?_, ?_, ?_⟩
  · unfold clean_data_ref
    rw [hok]
  · unfold heapUpdate
    rw [if_pos rfl]
  · intro heq
    have hdate : "Date" ∈ colNames (h r) := clean_data_ok_date_mem hok
    have hnames := clean_data_colNames hok
    rw [← heq] at hdate
    rw [hnames] at hdate
    exact not_date_mem_canon (colNames (h r)) hdate
  · intro s hs
    unfold heapUpdate
    rw [if_neg hs]

/-- C10 (witness): the theorem applied at a store holding the sample
upload at reference 0. -/
theorem c10_witness :
    clean_data (h0 0) = Except.ok cleanedSample ∧
    (clean_data_ref h0 0 = Except.ok (heapUpdate h0 0 cleanedSample, 0) ∧
      heapUpdate h0 0 cleanedSample 0 = cleanedSample ∧
      cleanedSample ≠ h0 0 ∧
      (∀ s : Nat, s ≠ 0 → heapUpdate h0 0 cleanedSample s = h0 s)) :=
  ⟨by decide, c10_inplace_mutation h0 0 cleanedSample (by decide)⟩

/-! ## Claim C3 -/

/-- C3 (counterexample): with tied sums, locations come out in the
alphabetical groupby key order, not first-appearance order — the
dataset lists location B before A, yet the table is [A, B]. -/
theorem c3_counterexample :
    location_engagements dsTie = [("A", 10), ("B", 10)] ∧
    location_engagements dsTie ≠ [("B", 10), ("A", 10)] := by
  refine ⟨by decide, by decide⟩

/-- C3 (amended): the Top Locations table groups by exact location
string (each entry carries the summed engagements of its location), has
at most 5 entries, is ordered descending by summed engagements with ties
broken by location string ascending (the alphabetical groupby key order,
not first appearance), and is empty iff the Canonical Dataset is
empty. -/
theorem c3_top_locations (ds : List CanonRecord) (k : String) (v : Int) :
    (location_engagements ds).length ≤ 5 ∧
    (location_engagements ds).Pairwise
      (fun a b => b.2 < a.2 ∨ (a.2 = b.2 ∧ strLtB a.1 b.1 = true)) ∧
    (location_engagements ds = [] ↔ ds = []) ∧
    ((k, v) ∈ location_engagements ds →
      v = ((ds.filter (fun r => decide (r.location = k))).map (fun r => r.engagements)).sum) := by
  refine ⟨nlargest_length_le 5 _, ?_, ?_, ?_⟩
  · unfold location_engagements
    exact nlargest_pairwise (fun a b => strLtB a b = true) 5 (groupbySum_key_pairwise _)
  · constructor
    · intro h
      unfold location_engagements at h
      have h2 := (nlargest_eq_nil_iff 5 (by decide) _).mp h
      have h3 := (groupbySum_eq_nil_iff strLtB _).mp h2
      exact List.map_eq_nil_iff.mp h3
    · intro h
      rw [h]
      rfl
  · intro hmem
    unfold location_engagements at hmem
    have h2 := mem_nlargest hmem
    have h3 := mem_groupbySum h2
    rw [h3]
    exact sumVals_map k (fun r => r.location) (fun r => r.engagements) ds

/-- C3 (witness): the amended theorem applied at the three-record
example, whose table contains ("London", 150). -/
theorem c3_witness :
    ("London", (150 : Int)) ∈ location_engagements ds7 ∧
    (150 : Int) = ((ds7.filter (fun r => decide (r.location = "London"))).map
      (fun r => r.engagements)).sum ∧
    (location_engagements ds7).length ≤ 5 :=
  ⟨by decide, (c3_top_locations ds7 "London" 150).2.2.2 (by decide),
    (c3_top_locations ds7 "London" 150).1⟩

/-! ## Claim C6 -/

/-- C6: the per-sentiment counts of the Sentiment Breakdown table sum to
the number of records of the Canonical Dataset, and each bucket counts
exactly the records whose sentiment equals its key string verbatim, so
case-differing sentiment strings land in distinct buckets. -/
theorem c6_sentiment_total (ds : List CanonRecord) (k : String) (v : Int) :
    ((sentiment_counts ds).map (fun p => p.2)).sum = (ds.length : Int) ∧
    ((k, v) ∈ sentiment_counts ds →
      v = ((ds.map (fun r => r.sentiment)).count k : Int)) := by
  constructor
  · unfold sentiment_counts
    rw [value_counts_sum, List.length_map]
  · intro h
    exact mem_value_counts h

/-- C6 (witness): the theorem applied at the three-record example with
the bucket ("Positive", 1). -/
theorem c6_witness :
    ((sentiment_counts ds7).map (fun p => p.2)).sum = (ds7.length : Int) ∧
    ("Positive", (1 : Int)) ∈ sentiment_counts ds7 ∧
    (1 : Int) = ((ds7.map (fun r => r.sentiment)).count "Positive" : Int) :=
  ⟨(c6_sentiment_total ds7 "Positive" 1).1, by decide,
    (c6_sentiment_total ds7 "Positive" 1).2 (by decide)⟩

/-! ## Claim C7 -/

/-- C7: on the spec's three-record example the Platform Engagements
table maps Twitter to 190 and Facebook to 80 (in ascending key order, as
the groupby emits it) and nothing else, and the Top Locations table is
London 150 followed by NewYork 120. -/
theorem c7_example_tables :
    platform_engagements ds7 = [("Facebook", 80), ("Twitter", 190)] ∧
    (platform_engagements ds7).lookup "Twitter" = some 190 ∧
    (platform_engagements ds7).lookup "Facebook" = some 80 ∧
    location_engagements ds7 = [("London", 150), ("NewYork", 120)] ∧
    (location_engagements ds7).lookup "London" = some 150 ∧
    (location_engagements ds7).lookup "NewYork" = some 120 := by
  refine ⟨by decide, by decide, by decide, by decide, by decide, by decide⟩

/-! ## Claim C8 -/

/-- C8 (counterexample): with no API key configured the insight loop is
skipped and every insight list stays empty — the insight list does not
become the single-element placeholder the claim promises for the
no-credential case. -/
theorem c8_counterexample :
    (entry TableKey.top_locations
      (generate_charts_and_insights false (fun _ => Except.error "no key") dsTie)).map
        ChartInfo.insights = some [] ∧
    some ([] : List String) ≠ some [placeholderInsight] := by
  refine ⟨by decide, by decide⟩

/-- C8 (amended): with a key configured, a failing per-table call leaves
that table's aggregate unchanged, sets (only) its insight list to the
single placeholder, and every other table's entry is exactly what it
would have been had that call succeeded — assembly of the rest is not
aborted; with no key configured the dashboard is the bare one and every
insight list is empty (not a placeholder). -/
theorem c8_insight_isolation (ds : List CanonRecord)
    (req req2 : TableKey → Except String (List String)) (k k2 : TableKey) (e : String)
    (hfail : req2 k = Except.error e) (hagree : ∀ j, j ≠ k → req2 j = req j) :
    (entry k (generate_charts_and_insights true req2 ds)).map ChartInfo.table =
      some (baseChart k ds).table ∧
    (entry k (generate_charts_and_insights true req2 ds)).map ChartInfo.insights =
      some [placeholderInsight] ∧
    (k2 ≠ k → entry k2 (generate_charts_and_insights true req2 ds) =
      entry k2 (generate_charts_and_insights true req ds)) ∧
    generate_charts_and_insights false req2 ds = baseDashboard ds ∧
    (entry k2 (generate_charts_and_insights false req2 ds)).map ChartInfo.insights =
      some [] := by
  have hgen : generate_charts_and_insights true req2 ds =
      applyInsights req2 (baseDashboard ds) := rfl
  have hgen2 : generate_charts_and_insights true req ds =
      applyInsights req (baseDashboard ds) := rfl
  refine ⟨?_, ?_, ?_, rfl, ?_⟩
  · rw [hgen, entry_applyInsights, entry_baseDashboard]
    rfl
  · rw [hgen, entry_applyInsights, entry_baseDashboard]
    simp [insightResult, hfail]
  · intro hk
    rw [hgen, hgen2, entry_applyInsights, entry_applyInsights, hagree k2 hk]
  · have hb : generate_charts_and_insights false req2 ds = baseDashboard ds := rfl
    rw [hb, entry_baseDashboard]
    cases k2 <;> rfl

/-- C8 (witness): the amended theorem applied with a requester failing
only on the Top Locations table, compared against one that succeeds
everywhere. -/
theorem c8_witness :
    reqFailW TableKey.top_locations = Except.error "boom" ∧
    (∀ j, j ≠ TableKey.top_locations → reqFailW j = reqOkW j) ∧
    ((entry TableKey.top_locations
        (generate_charts_and_insights true reqFailW dsTie)).map ChartInfo.table =
      some (baseChart TableKey.top_locations dsTie).table ∧
     (entry TableKey.top_locations
        (generate_charts_and_insights true reqFailW dsTie)).map ChartInfo.insights =
      some [placeholderInsight] ∧
     (TableKey.sentiment_breakdown ≠ TableKey.top_locations →
        entry TableKey.sentiment_breakdown (generate_charts_and_insights true reqFailW dsTie) =
          entry TableKey.sentiment_breakdown (generate_charts_and_insights true reqOkW dsTie)) ∧
     generate_charts_and_insights false reqFailW dsTie = baseDashboard dsTie ∧
     (entry TableKey.sentiment_breakdown
        (generate_charts_and_insights false reqFailW dsTie)).map ChartInfo.insights =
      some []) := by
  have hagree : ∀ j, j ≠ TableKey.top_locations → reqFailW j = reqOkW j := by
    intro j hj
    cases j <;> first | rfl | exact absurd rfl hj
  exact ⟨by decide, hagree,
    c8_insight_isolation dsTie reqOkW reqFailW TableKey.top_locations
      TableKey.sentiment_breakdown "boom" (by decide) hagree⟩

/-! ## Claim C9 -/

/-- C9: the header-only upload with all six required columns passes
validation unchanged, cleans successfully, and the run produces five
empty Aggregate Tables through an `ok` outcome — a success distinct from
any error outcome. -/
theorem c9_empty_dataset :
    validate_required emptyRaw = Except.ok emptyRaw ∧
    (clean_data emptyRaw).isOk = true ∧
    processUpload emptyRaw = Except.ok ⟨[], [], [], [], []⟩ ∧
    (processUpload emptyRaw).isOk = true := by
  refine ⟨by decide, by decide, by decide, by decide⟩
